import Mathlib

/-!
Shallow embedding of the stats-simple-cpp regression headers
(`CSimpleLinearRegression.hpp`, `CSimpleLogisticRegression.hpp`,
`Maths.hpp`, `Stats.hpp`).

Modelling conventions:
* C++ `double` values are idealised as rationals `ℚ` (exact real
  arithmetic, no rounding).
* IEEE NaN is modelled by `Option ℚ` where `none` stands for NaN; the
  only NaN sources on the verified paths are the explicit
  `quiet_NaN()` assignment in `SimpleLinearRegression::fit` and
  division by zero.
* `std::exp` is an abstract parameter `expF : ℚ → ℚ`; theorems hold for
  every such function, and witnesses instantiate it concretely.
* `throw std::invalid_argument` is modelled by returning `some e` for an
  error code `e : FitError` together with the (unchanged) object state.
* The gradient-descent do-while loop receives an explicit fuel
  parameter; theorems quantify over sufficient fuel.
-/

/-- Error codes standing for the `std::invalid_argument` throws of the
sources (one constructor per distinct message), plus a marker for the
out-of-domain `x.front()` access of `Maths::set` on an empty input. -/
inductive FitError where
  | learningRateNotPositive
  | gradientThresholdOutOfRange
  | iterationThresholdNotPositive
  | sizeMismatch
  | notEnoughValues
  | notTwoClasses
  | notBinaryValues
  | emptyInputToSet
deriving DecidableEq

/-- `std::accumulate(x.begin(), x.end(), 0.0)`: left fold of addition
starting from `0`. -/
def accumulate (x : List ℚ) : ℚ :=
  x.foldl (· + ·) 0

/-- `std::inner_product(x.begin(), x.end(), y.begin(), 0.0)`: left fold of
`acc + x_i * y_i` starting from `0`, driven by the first range. -/
def innerProd (x y : List ℚ) : ℚ :=
  (List.zipWith (· * ·) x y).foldl (· + ·) 0

/-- NaN-propagating addition on `Option ℚ` (IEEE: any operation with a
NaN operand yields NaN). -/
def oadd : Option ℚ → Option ℚ → Option ℚ
  | some a, some b => some (a + b)
  | _, _ => none

/-- NaN-propagating subtraction on `Option ℚ`. -/
def osub : Option ℚ → Option ℚ → Option ℚ
  | some a, some b => some (a - b)
  | _, _ => none

/-- NaN-propagating multiplication on `Option ℚ`. -/
def omul : Option ℚ → Option ℚ → Option ℚ
  | some a, some b => some (a * b)
  | _, _ => none

/-- NaN-propagating division on `Option ℚ`; a zero divisor is also mapped
to `none`.  (On the verified paths the sources never divide a finite
nonzero value by zero, so conflating IEEE infinities with NaN is
harmless there.) -/
def odiv : Option ℚ → Option ℚ → Option ℚ
  | some a, some b => if b = 0 then none else some (a / b)
  | _, _ => none

/-- `std::accumulate` over possibly-NaN values. -/
def accumulateO (x : List (Option ℚ)) : Option ℚ :=
  x.foldl oadd (some 0)

/-- `std::inner_product` over possibly-NaN values. -/
def innerProdO (x y : List (Option ℚ)) : Option ℚ :=
  (List.zipWith omul x y).foldl oadd (some 0)

/-- `static_cast<int>` on a real value: truncation toward zero. -/
def truncInt (q : ℚ) : ℤ :=
  if 0 ≤ q then ⌊q⌋ else ⌈q⌉

/-- The cast `static_cast<double>` applied to C++ `int` values. -/
def intCast (z : ℤ) : ℚ := (z : ℚ)

namespace Maths

/-- `Maths::linear`: element-wise `a * e + b`. -/
def linear (x : List ℚ) (a b : ℚ) : List ℚ :=
  x.map (fun e => a * e + b)

/-- `Maths::sigmoid`: element-wise `1.0 / (1.0 + std::exp(-e))`, with
`std::exp` abstracted as `expF`. -/
def sigmoid (expF : ℚ → ℚ) (x : List ℚ) : List ℚ :=
  x.map (fun e => 1 / (1 + expF (-e)))

/-- Inner loop of `Maths::set`: walk the input, appending an element to
the accumulated set exactly when no element already present is within
`epsilon` of it (strict `<` comparison on `fabs` of the difference of the
`static_cast<double>` images). -/
def setLoop {α : Type} (cast : α → ℚ) (epsilon : ℚ) : List α → List α → List α
  | [], xSet => xSet
  | a :: rest, xSet =>
      if xSet.any (fun s => |cast s - cast a| < epsilon) then
        setLoop cast epsilon rest xSet
      else
        setLoop cast epsilon rest (xSet ++ [a])

/-- `Maths::set`: epsilon-tolerant distinct-value extraction.  The C++
code unconditionally reads `x.front()` to seed the output, so an empty
input is an out-of-domain access, modelled as `none`. -/
def set {α : Type} (cast : α → ℚ) (x : List α) (epsilon : ℚ) : Option (List α) :=
  match x with
  | [] => none
  | h :: _ => some (setLoop cast epsilon x [h])

end Maths

namespace Stats

/-- `Stats::accuracy_score`: fraction of positions whose labels agree
after `static_cast<int>` of both sides; `invalid_argument` on size
mismatch or empty input. -/
def accuracy_score (yTrue yPredict : List ℚ) : Except FitError ℚ :=
  if yTrue.length ≠ yPredict.length then
    .error FitError.sizeMismatch
  else if yTrue.length = 0 then
    .error FitError.notEnoughValues
  else
    let score := List.zipWith (fun a b => decide (truncInt a = truncInt b)) yTrue yPredict
    .ok ((score.count true : ℚ) / (yTrue.length : ℚ))

end Stats

/-- The data members of `SimpleLinearRegression`: `_coeff` and
`_intercept`, possibly NaN. -/
structure SimpleLinearRegression where
  coeff : Option ℚ
  intercept : Option ℚ
deriving DecidableEq

namespace SimpleLinearRegression

/-- `SimpleLinearRegression::fit`: ordinary least squares; validation
first (state untouched on throw), then slope `(n·Sxy − Sx·Sy)/(n·Sxx −
Sx²)` with NaN on a zero denominator, then intercept
`(Sy − coeff·Sx)/n`. -/
def fit (st : SimpleLinearRegression) (x y : List ℚ) :
    SimpleLinearRegression × Option FitError :=
  if x.length ≠ y.length then
    (st, some FitError.sizeMismatch)
  else if x.length < 2 then
    (st, some FitError.notEnoughValues)
  else
    let n : ℚ := (x.length : ℚ)
    let sx := accumulate x
    let sy := accumulate y
    let sxx := innerProd x x
    let sxy := innerProd x y
    let num := n * sxy - sx * sy
    let denom := n * sxx - sx * sx
    let coeff : Option ℚ := if denom ≠ 0 then some (num / denom) else none
    let intercept : Option ℚ := odiv (osub (some sy) (omul coeff (some sx))) (some n)
    ({ coeff := coeff, intercept := intercept }, none)

/-- `SimpleLinearRegression::predict`: element-wise
`_coeff * x_i + _intercept` (NaN-propagating). -/
def predict (st : SimpleLinearRegression) (x : List ℚ) : List (Option ℚ) :=
  x.map (fun e => oadd (omul st.coeff (some e)) st.intercept)

/-- `SimpleLinearRegression::score`: validation, then
`R² = 1 − SS_res/SS_tot` where `SS_res = Σ(y_i − ŷ_i)²` from
`ŷ = predict(x)` and `SS_tot = Σy_i² − (Σy_i)²/n` from the *true*
values `y`. -/
def score (st : SimpleLinearRegression) (x y : List ℚ) :
    Except FitError (Option ℚ) :=
  if x.length ≠ y.length then
    .error FitError.sizeMismatch
  else if x.length = 0 then
    .error FitError.notEnoughValues
  else
    let n : ℚ := (x.length : ℚ)
    let yPredict := st.predict x
    let res := List.zipWith osub (y.map some) yPredict
    let ssres := innerProdO res res
    let sy := accumulate y
    let syy := innerProd y y
    let sstot := syy - sy * sy / n
    .ok (osub (some 1) (odiv ssres (some sstot)))

/-- Modelled from the spec: the R² formula as §4.1 of the spec words it,
with the total sum of squares computed from the *predicted* values,
`SS_tot = Σŷ_i² − (Σŷ_i)²/n`.  Differs from `score` only in the two
sums feeding `SS_tot`; kept for comparison against the source-derived
`score`. -/
def scoreSpecPredTot (st : SimpleLinearRegression) (x y : List ℚ) :
    Except FitError (Option ℚ) :=
  if x.length ≠ y.length then
    .error FitError.sizeMismatch
  else if x.length = 0 then
    .error FitError.notEnoughValues
  else
    let n : ℚ := (x.length : ℚ)
    let yPredict := st.predict x
    let res := List.zipWith osub (y.map some) yPredict
    let ssres := innerProdO res res
    let sy := accumulateO yPredict
    let syy := innerProdO yPredict yPredict
    let sstot := osub syy (odiv (omul sy sy) (some n))
    .ok (osub (some 1) (odiv ssres sstot))

end SimpleLinearRegression

/-- The data members of `SimpleLogisticRegression`: fitted parameters and
the hyperparameters fixed at construction. -/
structure SimpleLogisticRegression where
  coeff : ℚ
  intercept : ℚ
  learning_rate : ℚ
  gradient_threshold : ℚ
  iteration_threshold : ℤ
deriving DecidableEq

namespace SimpleLogisticRegression

/-- `SimpleLogisticRegression::predict`: `Maths::linear` with the given
coefficient and intercept, then `Maths::sigmoid`, then threshold
`e >= 0.5 ? 1 : 0`. -/
def predict (expF : ℚ → ℚ) (coeff intercept : ℚ) (x : List ℚ) : List ℤ :=
  let yLin := Maths.linear x coeff intercept
  let ySig := Maths.sigmoid expF yLin
  ySig.map (fun e => if 1 / 2 ≤ e then (1 : ℤ) else 0)

/-- One body execution of the gradient-descent do-while loop of
`SimpleLogisticRegression::fit`: predictions, residuals
`res = y_predict − y` (as doubles), gradients, parameter updates.
Returns `(coeff, intercept, d_coeff, d_intercept)`. -/
def fitStep (expF : ℚ → ℚ) (learning_rate : ℚ) (x : List ℚ) (y : List ℤ)
    (size_inv coeff intercept : ℚ) : ℚ × ℚ × ℚ × ℚ :=
  let yPredict := predict expF coeff intercept x
  let res := List.zipWith (fun (p t : ℤ) => (p : ℚ) - (t : ℚ)) yPredict y
  let dCoeff := size_inv * innerProd x res
  let dIntercept := size_inv * accumulate res
  (coeff - learning_rate * dCoeff, intercept - learning_rate * dIntercept,
    dCoeff, dIntercept)

/-- The IEEE behaviour of `std::fabs(d / c) > thr` for finite `d`, `c`
and `thr` in `(0, 1)`: when `c = 0` the quotient is `±inf` (comparison
true) for `d ≠ 0` and NaN (comparison false) for `d = 0`; otherwise an
exact rational comparison. -/
def absRatioGtThr (d c thr : ℚ) : Bool :=
  if c = 0 then decide (d ≠ 0) else decide (thr < |d / c|)

/-- The do-while condition of `SimpleLogisticRegression::fit`:
`(fabs(d_coeff/_coeff) > _gradient_threshold && fabs(d_intercept/_intercept)
 > _gradient_threshold) || iteration_count < _iteration_threshold`. -/
def loopCond (dCoeff dIntercept coeff intercept gradient_threshold : ℚ)
    (iteration_count iteration_threshold : ℤ) : Bool :=
  (absRatioGtThr dCoeff coeff gradient_threshold &&
    absRatioGtThr dIntercept intercept gradient_threshold) ||
  decide (iteration_count < iteration_threshold)

/-- The do-while loop of `SimpleLogisticRegression::fit`, with explicit
fuel.  Returns the final `(coeff, intercept, iteration_count)`; when the
fuel runs out the current state is returned as-is (the C++ loop has no
such bound, so theorems quantify over sufficient fuel). -/
def fitLoop (expF : ℚ → ℚ) (learning_rate gradient_threshold : ℚ)
    (iteration_threshold : ℤ) (x : List ℚ) (y : List ℤ) (size_inv : ℚ) :
    ℕ → ℚ → ℚ → ℤ → ℚ × ℚ × ℤ
  | 0, coeff, intercept, iteration_count => (coeff, intercept, iteration_count)
  | Nat.succ fuel, coeff, intercept, iteration_count =>
      let s := fitStep expF learning_rate x y size_inv coeff intercept
      let count1 := iteration_count + 1
      if loopCond s.2.2.1 s.2.2.2 s.1 s.2.1 gradient_threshold count1
          iteration_threshold then
        fitLoop expF learning_rate gradient_threshold iteration_threshold
          x y size_inv fuel s.1 s.2.1 count1
      else
        (s.1, s.2.1, count1)

/-- `SimpleLogisticRegression::fit`: hyperparameter and input validation
(state untouched on throw, including the `Maths::set`-based binary-label
check), then gradient descent from `_coeff = 0`, `_intercept = 0`. -/
def fit (expF : ℚ → ℚ) (fuel : ℕ) (st : SimpleLogisticRegression)
    (x : List ℚ) (y : List ℤ) : SimpleLogisticRegression × Option FitError :=
  if st.learning_rate ≤ 0 then
    (st, some FitError.learningRateNotPositive)
  else if st.gradient_threshold ≤ 0 ∨ 1 ≤ st.gradient_threshold then
    (st, some FitError.gradientThresholdOutOfRange)
  else if st.iteration_threshold ≤ 0 then
    (st, some FitError.iterationThresholdNotPositive)
  else if x.length ≠ y.length then
    (st, some FitError.sizeMismatch)
  else if x.length < 2 then
    (st, some FitError.notEnoughValues)
  else
    match Maths.set intCast y (1 / 1000000) with
    | none => (st, some FitError.emptyInputToSet)
    | some ySet =>
      if ySet.length ≠ 2 then
        (st, some FitError.notTwoClasses)
      else if (ySet.headI ≠ 0 ∧ ySet.headI ≠ 1) ∨
          (ySet.getLastD 0 ≠ 0 ∧ ySet.getLastD 0 ≠ 1) then
        (st, some FitError.notBinaryValues)
      else
        let size_inv : ℚ := 1 / (x.length : ℚ)
        let r := fitLoop expF st.learning_rate st.gradient_threshold
          st.iteration_threshold x y size_inv fuel 0 0 0
        ({ st with coeff := r.1, intercept := r.2.1 }, none)

/-- `SimpleLogisticRegression::score`: accuracy of `predict(x)` wrt `y`
via `Stats::accuracy_score` (both label sequences cast to double). -/
def score (expF : ℚ → ℚ) (st : SimpleLogisticRegression)
    (x : List ℚ) (y : List ℤ) : Except FitError ℚ :=
  let yPredict := predict expF st.coeff st.intercept x
  Stats.accuracy_score (y.map intCast) (yPredict.map intCast)

end SimpleLogisticRegression

theorem foldl_add_eq_add_sum (l : List ℚ) : ∀ c : ℚ, l.foldl (· + ·) c = c + l.sum := by
  induction l with
  | nil => intro c; simp
  | cons a t ih => intro c; simp [List.foldl_cons, ih (c + a)]; ring

theorem accumulate_eq_sum (l : List ℚ) : accumulate l = l.sum := by
  simp [accumulate, foldl_add_eq_add_sum]

theorem innerProd_eq_sum (x y : List ℚ) :
    innerProd x y = (List.zipWith (· * ·) x y).sum := by
  simp [innerProd, foldl_add_eq_add_sum]

theorem zipWith_mul_self_eq_map_sq (l : List ℚ) :
    List.zipWith (· * ·) l l = l.map (fun e => e ^ 2) := by
  induction l with
  | nil => rfl
  | cons a t ih => simp [List.zipWith_cons_cons, ih, sq]

theorem foldl_oadd_map_some (l : List ℚ) : ∀ c : ℚ,
    (l.map some).foldl oadd (some c) = some (l.foldl (· + ·) c) := by
  induction l with
  | nil => intro c; rfl
  | cons a t ih => intro c; simp [List.foldl_cons, oadd, ih (c + a)]

theorem zipWith_omul_map_some (u : List ℚ) : ∀ v : List ℚ,
    List.zipWith omul (u.map some) (v.map some) =
      (List.zipWith (· * ·) u v).map some := by
  induction u with
  | nil => intro v; rfl
  | cons a t ih =>
      intro v
      cases v with
      | nil => rfl
      | cons b w => simp [List.zipWith_cons_cons, omul, ih w]

theorem innerProdO_map_some (u v : List ℚ) :
    innerProdO (u.map some) (v.map some) = some (innerProd u v) := by
  unfold innerProdO innerProd
  rw [zipWith_omul_map_some, foldl_oadd_map_some]

theorem accumulateO_map_some (u : List ℚ) :
    accumulateO (u.map some) = some (accumulate u) := by
  simp [accumulateO, accumulate, foldl_oadd_map_some]

theorem zipWith_osub_map_some (f : ℚ → ℚ) (u : List ℚ) : ∀ v : List ℚ,
    List.zipWith osub (u.map some) (v.map fun e => some (f e)) =
      (List.zipWith (fun a e => a - f e) u v).map some := by
  induction u with
  | nil => intro v; rfl
  | cons a t ih =>
      intro v
      cases v with
      | nil => rfl
      | cons b w => simp [List.zipWith_cons_cons, osub, ih w]

theorem count_true_zipWith (p : ℚ → ℚ → Bool) (u : List ℚ) : ∀ v : List ℚ,
    (List.zipWith p u v).count true = (u.zip v).countP (fun q => p q.1 q.2) := by
  induction u with
  | nil => intro v; rfl
  | cons a t ih =>
      intro v
      cases v with
      | nil => rfl
      | cons b w =>
          simp only [List.zipWith_cons_cons, List.zip_cons_cons, List.count_cons,
            List.countP_cons, ih w]
          rcases h : p a b <;> simp [h]

theorem const_list_denom_zero (x : List ℚ) (h : ∀ a ∈ x, a = x.headI) :
    (x.length : ℚ) * (x.map fun e => e ^ 2).sum - x.sum ^ 2 = 0 := by
  have hx : x = List.replicate x.length x.headI := List.eq_replicate_of_mem h
  rw [hx]
  simp only [List.map_replicate, List.sum_replicate, List.length_replicate,
    nsmul_eq_mul]
  ring

/-- C6: for every input sequence `x` and stored `coefficient` and
`intercept`, `SimpleLogisticRegression::predict(x)` returns an integer
sequence of the same length as `x` whose elements are
`1` when `sigmoid(coefficient * x_i + intercept) >= 0.5` and `0`
otherwise, so every output element is `0` or `1`. -/
theorem logistic_predict_thresholds_sigmoid (expF : ℚ → ℚ) (c i : ℚ) (x : List ℚ) :
    SimpleLogisticRegression.predict expF c i x =
      x.map (fun e => if 1 / 2 ≤ 1 / (1 + expF (-(c * e + i))) then (1 : ℤ) else 0) ∧
    (SimpleLogisticRegression.predict expF c i x).length = x.length ∧
    ∀ z ∈ SimpleLogisticRegression.predict expF c i x, z = 0 ∨ z = 1 := by
  refine ⟨?_, ?_, ?_⟩
  · simp [SimpleLogisticRegression.predict, Maths.linear, Maths.sigmoid,
      List.map_map, Function.comp]
  · simp [SimpleLogisticRegression.predict, Maths.linear, Maths.sigmoid]
  · intro z hz
    simp only [SimpleLogisticRegression.predict, Maths.linear, Maths.sigmoid,
      List.map_map, List.mem_map, Function.comp] at hz
    obtain ⟨e, _, he⟩ := hz
    split_ifs at he
    · right; exact he.symm
    · left; exact he.symm

/-- C8: in `Maths::set(x, epsilon)`, an element is appended to the output
exactly when its absolute difference from every element already present
is at least `epsilon`; values differing by less than `epsilon` collapse
into one class and values differing by exactly `epsilon` are distinct
(the comparison is a strict `<`). -/
theorem set_adds_iff_all_at_least_epsilon {α : Type} (cast : α → ℚ)
    (epsilon : ℚ) (a : α) (rest xSet : List α) (u v e : ℚ) :
    (Maths.setLoop cast epsilon (a :: rest) xSet =
      Maths.setLoop cast epsilon rest
        (if ∀ s ∈ xSet, epsilon ≤ |cast s - cast a| then xSet ++ [a] else xSet)) ∧
    (0 < e → |u - v| = e → Maths.set id [u, v] e = some [u, v]) ∧
    (|u - v| < e → Maths.set id [u, v] e = some [u]) := by
  refine ⟨?_, ?_, ?_⟩
  · rw [Maths.setLoop]
    by_cases h : ∀ s ∈ xSet, epsilon ≤ |cast s - cast a|
    · have hany : xSet.any (fun s => decide (|cast s - cast a| < epsilon)) = false := by
        rw [Bool.eq_false_iff]
        simp only [ne_eq, List.any_eq_true, decide_eq_true_eq, not_exists, not_and]
        intro s hs
        exact not_lt.mpr (h s hs)
      rw [if_pos h]
      simp [hany]
    · have hany : xSet.any (fun s => decide (|cast s - cast a| < epsilon)) = true := by
        push_neg at h
        obtain ⟨s, hs, hlt⟩ := h
        simp only [List.any_eq_true, decide_eq_true_eq]
        exact ⟨s, hs, hlt⟩
      rw [if_neg h]
      simp [hany]
  · intro he habs
    simp [Maths.set, Maths.setLoop, sub_self, abs_zero, he, habs, lt_irrefl]
  · intro hlt
    have he : 0 < e := lt_of_le_of_lt (abs_nonneg _) hlt
    simp [Maths.set, Maths.setLoop, sub_self, abs_zero, he, hlt]

/-- Witness for C8: `0` and `1` are exactly `1` apart, hence distinct for
`epsilon = 1`; `0` and `0` are within `1`, hence one class. -/
theorem set_adds_iff_all_at_least_epsilon_witness :
    Maths.set id [(0 : ℚ), 1] 1 = some [0, 1] ∧
    Maths.set id [(0 : ℚ), 0] 1 = some [0] :=
  ⟨(set_adds_iff_all_at_least_epsilon (α := ℚ) id 1 0 [] [] 0 1 1).2.1
      (by norm_num) (by norm_num),
   (set_adds_iff_all_at_least_epsilon (α := ℚ) id 1 0 [] [] 0 0 1).2.2
      (by norm_num)⟩

/-- C9: `Stats::accuracy_score` throws on mismatched lengths or empty
inputs and otherwise returns the number of positions whose two labels
are equal after `static_cast<int>` (truncation toward zero), divided by
the length. -/
theorem accuracy_score_counts_truncated_matches (yt yp : List ℚ) :
    (yt.length ≠ yp.length →
      Stats.accuracy_score yt yp = .error FitError.sizeMismatch) ∧
    (yt.length = yp.length → yt.length = 0 →
      Stats.accuracy_score yt yp = .error FitError.notEnoughValues) ∧
    (yt.length = yp.length → 1 ≤ yt.length →
      Stats.accuracy_score yt yp =
        .ok ((((yt.zip yp).countP fun q => decide (truncInt q.1 = truncInt q.2)) : ℚ) /
          (yt.length : ℚ))) := by
  refine ⟨?_, ?_, ?_⟩
  · intro h
    simp [Stats.accuracy_score, h]
  · intro h h0
    have hne : ¬yt.length ≠ yp.length := by simp [h]
    simp only [Stats.accuracy_score, if_neg hne, if_pos h0]
  · intro h h1
    have hne : ¬yt.length ≠ yp.length := by simp [h]
    have h0 : ¬yt.length = 0 := by omega
    simp only [Stats.accuracy_score, if_neg hne, if_neg h0]
    rw [count_true_zipWith]

/-- Witness for C9: the labels `0.9` and `0.2` differ but both truncate
to `0`, so they count as a match and the accuracy is `1`. -/
theorem accuracy_score_counts_truncated_matches_witness :
    Stats.accuracy_score [(9 : ℚ) / 10] [(2 : ℚ) / 10] = .ok 1 := by
  have h := (accuracy_score_counts_truncated_matches
    [(9 : ℚ) / 10] [(2 : ℚ) / 10]).2.2 rfl (by norm_num)
  rw [h]
  norm_num [List.countP, List.countP.go, truncInt]

theorem fitLoop_count_ge (expF : ℚ → ℚ) (lr g : ℚ) (t : ℤ) (x : List ℚ)
    (y : List ℤ) (sI : ℚ) :
    ∀ (fuel : ℕ) (c i : ℚ) (n : ℤ), t ≤ n + fuel →
      t ≤ (SimpleLogisticRegression.fitLoop expF lr g t x y sI fuel c i n).2.2 := by
  intro fuel
  induction fuel with
  | zero =>
      intro c i n h
      simpa [SimpleLogisticRegression.fitLoop] using h
  | succ fuel ih =>
      intro c i n h
      simp only [SimpleLogisticRegression.fitLoop]
      split
      · exact ih _ _ (n + 1) (by push_cast at h ⊢; omega)
      · rename_i hfalse
        simp only [SimpleLogisticRegression.loopCond, Bool.or_eq_true,
          decide_eq_true_eq, not_or] at hfalse
        simp only []
        omega

/-- C2: the do-while in `SimpleLogisticRegression::fit` performs another
iteration exactly when
`(|d_coeff/_coeff| > threshold && |d_intercept/_intercept| > threshold)
 || iteration_count < iteration_threshold`; in particular the condition
holds whenever the iteration count is below `iteration_threshold`, so
with sufficient fuel the loop executes at least `iteration_threshold`
iterations regardless of the gradient magnitudes. -/
theorem logistic_fit_at_least_threshold_iterations (expF : ℚ → ℚ) (lr g : ℚ)
    (t : ℤ) (x : List ℚ) (y : List ℤ) (sI : ℚ) (fuel : ℕ) (c i : ℚ) (n : ℤ) :
    (∀ (fuel' : ℕ) (c' i' : ℚ) (n' : ℤ),
      SimpleLogisticRegression.fitLoop expF lr g t x y sI (fuel' + 1) c' i' n' =
        (let s := SimpleLogisticRegression.fitStep expF lr x y sI c' i'
         if SimpleLogisticRegression.loopCond s.2.2.1 s.2.2.2 s.1 s.2.1 g
             (n' + 1) t then
           SimpleLogisticRegression.fitLoop expF lr g t x y sI fuel' s.1 s.2.1
             (n' + 1)
         else (s.1, s.2.1, n' + 1))) ∧
    (∀ (dC dI c' i' : ℚ) (m : ℤ), m < t →
      SimpleLogisticRegression.loopCond dC dI c' i' g m t = true) ∧
    (t ≤ n + fuel →
      t ≤ (SimpleLogisticRegression.fitLoop expF lr g t x y sI fuel c i n).2.2) := by
  refine ⟨fun fuel' c' i' n' => rfl, ?_, fitLoop_count_ge expF lr g t x y sI fuel c i n⟩
  intro dC dI c' i' m hm
  simp [SimpleLogisticRegression.loopCond, hm]

/-- Witness for C2: with `iteration_threshold = 2` and fuel `3`, the loop
runs at least `2` iterations on a concrete dataset. -/
theorem logistic_fit_at_least_threshold_iterations_witness :
    (2 : ℤ) ≤ (SimpleLogisticRegression.fitLoop (fun _ => 1) 1 (1 / 2) 2
      [0, 1] [0, 1] (1 / 2) 3 0 0 0).2.2 :=
  (logistic_fit_at_least_threshold_iterations (fun _ => 1) 1 (1 / 2) 2
    [0, 1] [0, 1] (1 / 2) 3 0 0 0).2.2 (by norm_num)

/-- C7: whenever `fit` of either regressor throws, the stored state is
exactly what it was before the call: the throws all occur before any
mutation of `_coeff`, `_intercept` or (for the logistic model) the
hyperparameters. -/
theorem fit_state_unchanged_on_error (s : SimpleLinearRegression)
    (x y : List ℚ) (expF : ℚ → ℚ) (fuel : ℕ) (s' : SimpleLogisticRegression)
    (x' : List ℚ) (y' : List ℤ) :
    ((SimpleLinearRegression.fit s x y).2.isSome = true →
      (SimpleLinearRegression.fit s x y).1 = s) ∧
    ((SimpleLogisticRegression.fit expF fuel s' x' y').2.isSome = true →
      (SimpleLogisticRegression.fit expF fuel s' x' y').1 = s') := by
  constructor
  · intro h
    unfold SimpleLinearRegression.fit at h ⊢
    split_ifs at h ⊢ <;> simp_all
  · intro h
    by_cases h1 : s'.learning_rate ≤ 0
    · simp only [SimpleLogisticRegression.fit, if_pos h1]
    by_cases h2 : s'.gradient_threshold ≤ 0 ∨ 1 ≤ s'.gradient_threshold
    · simp only [SimpleLogisticRegression.fit, if_neg h1, if_pos h2]
    by_cases h3 : s'.iteration_threshold ≤ 0
    · simp only [SimpleLogisticRegression.fit, if_neg h1, if_neg h2, if_pos h3]
    by_cases h4 : x'.length ≠ y'.length
    · simp only [SimpleLogisticRegression.fit, if_neg h1, if_neg h2, if_neg h3,
        if_pos h4]
    by_cases h5 : x'.length < 2
    · simp only [SimpleLogisticRegression.fit, if_neg h1, if_neg h2, if_neg h3,
        if_neg h4, if_pos h5]
    rcases hset : Maths.set intCast y' (1 / 1000000) with _ | ySet
    · simp only [SimpleLogisticRegression.fit, if_neg h1, if_neg h2, if_neg h3,
        if_neg h4, if_neg h5, hset]
    by_cases h6 : ySet.length ≠ 2
    · simp only [SimpleLogisticRegression.fit, if_neg h1, if_neg h2, if_neg h3,
        if_neg h4, if_neg h5, hset, if_pos h6]
    by_cases h7 : (ySet.headI ≠ 0 ∧ ySet.headI ≠ 1) ∨
        (ySet.getLastD 0 ≠ 0 ∧ ySet.getLastD 0 ≠ 1)
    · simp only [SimpleLogisticRegression.fit, if_neg h1, if_neg h2, if_neg h3,
        if_neg h4, if_neg h5, hset, if_neg h6, if_pos h7]
    exfalso
    simp only [SimpleLogisticRegression.fit, if_neg h1, if_neg h2, if_neg h3,
      if_neg h4, if_neg h5, hset, if_neg h6, if_neg h7] at h
    simp at h

/-- Witness for C7: a mismatched-length call leaves the linear model
untouched and a negative learning rate leaves the logistic model
untouched. -/
theorem fit_state_unchanged_on_error_witness :
    (SimpleLinearRegression.fit ⟨some 3, some 4⟩ [1] []).1 = ⟨some 3, some 4⟩ ∧
    (SimpleLogisticRegression.fit (fun _ => 1) 1 ⟨0, 0, -1, 1 / 2, 1⟩
      [0, 1] [0, 1]).1 = ⟨0, 0, -1, 1 / 2, 1⟩ :=
  ⟨(fit_state_unchanged_on_error ⟨some 3, some 4⟩ [1] [] (fun _ => 1) 1
      ⟨0, 0, -1, 1 / 2, 1⟩ [0, 1] [0, 1]).1
      (by norm_num [SimpleLinearRegression.fit]),
   (fit_state_unchanged_on_error ⟨some 3, some 4⟩ [1] [] (fun _ => 1) 1
      ⟨0, 0, -1, 1 / 2, 1⟩ [0, 1] [0, 1]).2
      (by norm_num [SimpleLogisticRegression.fit])⟩

/-- C3: for equal-length inputs with at least two values,
`SimpleLinearRegression::fit` sets
`coefficient = (n·Sxy − Sx·Sy)/(n·Sxx − Sx²)` and
`intercept = (Sy − coefficient·Sx)/n`; a zero denominator (in particular
a constant `x`) yields a NaN coefficient without raising an error, and
the NaN propagates into every element of a subsequent `predict`. -/
theorem linear_fit_ols_formula_and_nan (st : SimpleLinearRegression)
    (x y : List ℚ) (hlen : x.length = y.length) (h2 : 2 ≤ x.length) :
    ((SimpleLinearRegression.fit st x y).2 = none) ∧
    ((x.length : ℚ) * (x.map fun e => e ^ 2).sum - x.sum ^ 2 ≠ 0 →
      (SimpleLinearRegression.fit st x y).1.coeff =
        some (((x.length : ℚ) * (List.zipWith (· * ·) x y).sum - x.sum * y.sum) /
          ((x.length : ℚ) * (x.map fun e => e ^ 2).sum - x.sum ^ 2)) ∧
      (SimpleLinearRegression.fit st x y).1.intercept =
        some ((y.sum -
          (((x.length : ℚ) * (List.zipWith (· * ·) x y).sum - x.sum * y.sum) /
            ((x.length : ℚ) * (x.map fun e => e ^ 2).sum - x.sum ^ 2)) * x.sum) /
          (x.length : ℚ))) ∧
    ((x.length : ℚ) * (x.map fun e => e ^ 2).sum - x.sum ^ 2 = 0 →
      (SimpleLinearRegression.fit st x y).1.coeff = none ∧
      (SimpleLinearRegression.fit st x y).1.intercept = none ∧
      ∀ (x' : List ℚ), ∀ e ∈
        SimpleLinearRegression.predict (SimpleLinearRegression.fit st x y).1 x',
        e = none) ∧
    ((∀ a ∈ x, a = x.headI) →
      (x.length : ℚ) * (x.map fun e => e ^ 2).sum - x.sum ^ 2 = 0) := by
  have hne : ¬x.length ≠ y.length := by simp [hlen]
  have hlt : ¬x.length < 2 := by omega
  have hn : (x.length : ℚ) ≠ 0 := by
    have : 0 < x.length := by omega
    exact_mod_cast Nat.cast_ne_zero.mpr (by omega)
  have hsxx : innerProd x x = (x.map fun e => e ^ 2).sum := by
    rw [innerProd_eq_sum, zipWith_mul_self_eq_map_sq]
  have hsx : accumulate x = x.sum := accumulate_eq_sum x
  have hsy : accumulate y = y.sum := accumulate_eq_sum y
  have hsxy : innerProd x y = (List.zipWith (· * ·) x y).sum := innerProd_eq_sum x y
  have hdeq : (x.length : ℚ) * innerProd x x - accumulate x * accumulate x =
      (x.length : ℚ) * (x.map fun e => e ^ 2).sum - x.sum ^ 2 := by
    rw [hsxx, hsx]; ring
  refine ⟨?_, ?_, ?_, const_list_denom_zero x⟩
  · simp only [SimpleLinearRegression.fit, if_neg hne, if_neg hlt]
  · intro hd
    have hd' : (x.length : ℚ) * innerProd x x - accumulate x * accumulate x ≠ 0 := by
      rw [hdeq]; exact hd
    simp only [SimpleLinearRegression.fit, if_neg hne, if_neg hlt, if_pos hd',
      omul, osub, odiv, if_neg hn]
    rw [hdeq, hsx, hsy, hsxy]
    exact ⟨rfl, rfl⟩
  · intro hd
    have hd' : ¬((x.length : ℚ) * innerProd x x - accumulate x * accumulate x ≠ 0) := by
      rw [hdeq]; simpa using hd
    have hfit : (SimpleLinearRegression.fit st x y).1 =
        { coeff := none, intercept := none } := by
      simp only [SimpleLinearRegression.fit, if_neg hne, if_neg hlt, if_neg hd',
        omul, osub, odiv]
    refine ⟨by rw [hfit], by rw [hfit], ?_⟩
    intro x' e he
    rw [hfit] at he
    simp only [SimpleLinearRegression.predict, omul, oadd, List.mem_map] at he
    obtain ⟨_, _, hee⟩ := he
    exact hee.symm

/-- Witness for C3: on the constant input `x = [1, 1]` the denominator
is zero, `fit` succeeds with NaN parameters, and `predict` on `[7]`
yields NaN. -/
theorem linear_fit_ols_formula_and_nan_witness :
    (SimpleLinearRegression.fit ⟨some 3, some 4⟩ [1, 1] [0, 1]).2 = none ∧
    (SimpleLinearRegression.fit ⟨some 3, some 4⟩ [1, 1] [0, 1]).1.coeff = none ∧
    (SimpleLinearRegression.fit ⟨some 3, some 4⟩ [1, 1] [0, 1]).1.intercept = none ∧
    SimpleLinearRegression.predict
      (SimpleLinearRegression.fit ⟨some 3, some 4⟩ [1, 1] [0, 1]).1 [7] = [none] := by
  have h := linear_fit_ols_formula_and_nan ⟨some 3, some 4⟩ [1, 1] [0, 1]
    rfl (by norm_num)
  have hd : ((2 : ℚ) : ℚ) * (([1, 1] : List ℚ).map fun e => e ^ 2).sum -
      ([1, 1] : List ℚ).sum ^ 2 = 0 := by norm_num
  refine ⟨h.1, (h.2.2.1 (by norm_num)).1, (h.2.2.1 (by norm_num)).2.1, ?_⟩
  have hp := (h.2.2.1 (by norm_num)).2.2 [7]
  have hmem : ∀ e ∈ SimpleLinearRegression.predict
      (SimpleLinearRegression.fit ⟨some 3, some 4⟩ [1, 1] [0, 1]).1 [7], e = none := hp
  norm_num [SimpleLinearRegression.fit, SimpleLinearRegression.predict,
    accumulate, innerProd, odiv, osub, omul, oadd]

/-- C5: each iteration of `SimpleLogisticRegression::fit` computes its
residual from the thresholded integer outputs of `predict(x)`:
`r = predict(x) − y`, `d_coeff = size_inv · Σ(x_i·r_i)`,
`d_intercept = size_inv · Σr_i`, and updates
`coefficient -= lr·d_coeff`, `intercept -= lr·d_intercept`; `fit`
initializes `coefficient = 0`, `intercept = 0` (and the iteration count
to `0`) before the loop and passes `size_inv = 1/n`. -/
theorem logistic_gradient_from_thresholded_predictions (expF : ℚ → ℚ)
    (lr : ℚ) (x : List ℚ) (y : List ℤ) (sI c i : ℚ) (fuel : ℕ)
    (st : SimpleLogisticRegression) (x' : List ℚ) (y' : List ℤ) :
    (SimpleLogisticRegression.fitStep expF lr x y sI c i =
      (c - lr * (sI * (List.zipWith (· * ·) x
          (List.zipWith (fun (p t : ℤ) => (p : ℚ) - (t : ℚ))
            (SimpleLogisticRegression.predict expF c i x) y)).sum),
       i - lr * (sI * (List.zipWith (fun (p t : ℤ) => (p : ℚ) - (t : ℚ))
            (SimpleLogisticRegression.predict expF c i x) y).sum),
       sI * (List.zipWith (· * ·) x
          (List.zipWith (fun (p t : ℤ) => (p : ℚ) - (t : ℚ))
            (SimpleLogisticRegression.predict expF c i x) y)).sum,
       sI * (List.zipWith (fun (p t : ℤ) => (p : ℚ) - (t : ℚ))
            (SimpleLogisticRegression.predict expF c i x) y).sum)) ∧
    ((SimpleLogisticRegression.fit expF fuel st x' y').2 = none →
      (SimpleLogisticRegression.fit expF fuel st x' y').1 =
        { st with
          coeff := (SimpleLogisticRegression.fitLoop expF st.learning_rate
            st.gradient_threshold st.iteration_threshold x' y'
            (1 / (x'.length : ℚ)) fuel 0 0 0).1,
          intercept := (SimpleLogisticRegression.fitLoop expF st.learning_rate
            st.gradient_threshold st.iteration_threshold x' y'
            (1 / (x'.length : ℚ)) fuel 0 0 0).2.1 }) := by
  constructor
  · simp only [SimpleLogisticRegression.fitStep]
    rw [innerProd_eq_sum, accumulate_eq_sum]
  · intro h
    by_cases h1 : st.learning_rate ≤ 0
    · simp only [SimpleLogisticRegression.fit, if_pos h1] at h
      exact absurd h (by simp)
    by_cases h2 : st.gradient_threshold ≤ 0 ∨ 1 ≤ st.gradient_threshold
    · simp only [SimpleLogisticRegression.fit, if_neg h1, if_pos h2] at h
      exact absurd h (by simp)
    by_cases h3 : st.iteration_threshold ≤ 0
    · simp only [SimpleLogisticRegression.fit, if_neg h1, if_neg h2, if_pos h3] at h
      exact absurd h (by simp)
    by_cases h4 : x'.length ≠ y'.length
    · simp only [SimpleLogisticRegression.fit, if_neg h1, if_neg h2, if_neg h3,
        if_pos h4] at h
      exact absurd h (by simp)
    by_cases h5 : x'.length < 2
    · simp only [SimpleLogisticRegression.fit, if_neg h1, if_neg h2, if_neg h3,
        if_neg h4, if_pos h5] at h
      exact absurd h (by simp)
    rcases hset : Maths.set intCast y' (1 / 1000000) with _ | ySet
    · simp only [SimpleLogisticRegression.fit, if_neg h1, if_neg h2, if_neg h3,
        if_neg h4, if_neg h5, hset] at h
      exact absurd h (by simp)
    by_cases h6 : ySet.length ≠ 2
    · simp only [SimpleLogisticRegression.fit, if_neg h1, if_neg h2, if_neg h3,
        if_neg h4, if_neg h5, hset, if_pos h6] at h
      exact absurd h (by simp)
    by_cases h7 : (ySet.headI ≠ 0 ∧ ySet.headI ≠ 1) ∨
        (ySet.getLastD 0 ≠ 0 ∧ ySet.getLastD 0 ≠ 1)
    · simp only [SimpleLogisticRegression.fit, if_neg h1, if_neg h2, if_neg h3,
        if_neg h4, if_neg h5, hset, if_neg h6, if_pos h7] at h
      exact absurd h (by simp)
    simp only [SimpleLogisticRegression.fit, if_neg h1, if_neg h2, if_neg h3,
      if_neg h4, if_neg h5, hset, if_neg h6, if_neg h7]

/-- Witness for C5: a concrete successful `fit` whose result is the loop
outcome started from `coefficient = 0`, `intercept = 0`. -/
theorem logistic_gradient_from_thresholded_predictions_witness :
    (SimpleLogisticRegression.fit (fun _ => 1) 2 ⟨0, 0, 1, 1 / 2, 1⟩
        [0, 1] [0, 1]).1 =
      { coeff := (SimpleLogisticRegression.fitLoop (fun _ => 1)
          (SimpleLogisticRegression.mk 0 0 1 (1 / 2) 1).learning_rate
          (SimpleLogisticRegression.mk 0 0 1 (1 / 2) 1).gradient_threshold
          (SimpleLogisticRegression.mk 0 0 1 (1 / 2) 1).iteration_threshold
          [0, 1] [0, 1] (1 / (([0, 1] : List ℚ).length : ℚ)) 2 0 0 0).1,
        intercept := (SimpleLogisticRegression.fitLoop (fun _ => 1)
          (SimpleLogisticRegression.mk 0 0 1 (1 / 2) 1).learning_rate
          (SimpleLogisticRegression.mk 0 0 1 (1 / 2) 1).gradient_threshold
          (SimpleLogisticRegression.mk 0 0 1 (1 / 2) 1).iteration_threshold
          [0, 1] [0, 1] (1 / (([0, 1] : List ℚ).length : ℚ)) 2 0 0 0).2.1,
        learning_rate := 1, gradient_threshold := 1 / 2,
        iteration_threshold := 1 } :=
  (logistic_gradient_from_thresholded_predictions (fun _ => 1) 1 [] [] 0 0 0 2
      ⟨0, 0, 1, 1 / 2, 1⟩ [0, 1] [0, 1]).2
    (by norm_num [SimpleLogisticRegression.fit, SimpleLogisticRegression.fitLoop,
      SimpleLogisticRegression.fitStep, SimpleLogisticRegression.predict,
      SimpleLogisticRegression.loopCond, SimpleLogisticRegression.absRatioGtThr,
      Maths.set, Maths.setLoop, Maths.linear, Maths.sigmoid,
      accumulate, innerProd, intCast])

/-- C1 is false as stated: at `coefficient = 1`, `intercept = 0`,
`x = [0, 1]`, `y = [0, 2]`, the source's `score` returns `1/2`
(`SS_tot` from the true `y`) while the claimed formula with `SS_tot`
from the predicted values returns `-1`. -/
theorem score_sstot_spec_formula_counterexample :
    SimpleLinearRegression.score ⟨some 1, some 0⟩ [0, 1] [0, 2] ≠
      SimpleLinearRegression.scoreSpecPredTot ⟨some 1, some 0⟩ [0, 1] [0, 2] := by
  norm_num [SimpleLinearRegression.score, SimpleLinearRegression.scoreSpecPredTot,
    SimpleLinearRegression.predict, accumulate, accumulateO, innerProd,
    innerProdO, odiv, osub, omul, oadd]

/-- C1 (amended): for equal-length sequences with `n ≥ 1` and a fitted
(non-NaN) state, `score` returns `1 − SS_res/SS_tot` with
`SS_res = Σ(y_i − ŷ_i)²`, `ŷ = predict(x)`, and `SS_tot` computed from
the *true* values as `Σy_i² − (Σy_i)²/n`. -/
theorem score_sstot_from_true_values (st : SimpleLinearRegression)
    (x y : List ℚ) (c b : ℚ) (hc : st.coeff = some c) (hb : st.intercept = some b)
    (hlen : x.length = y.length) (h1 : 1 ≤ x.length)
    (hst : (y.map fun e => e ^ 2).sum - y.sum ^ 2 / (x.length : ℚ) ≠ 0) :
    SimpleLinearRegression.score st x y =
      .ok (some (1 -
        (List.zipWith (fun yi xi => (yi - (c * xi + b)) ^ 2) y x).sum /
        ((y.map fun e => e ^ 2).sum - y.sum ^ 2 / (x.length : ℚ)))) := by
  have hne : ¬x.length ≠ y.length := by simp [hlen]
  have h0 : ¬x.length = 0 := by omega
  have hpred : SimpleLinearRegression.predict st x = x.map fun e => some (c * e + b) := by
    simp [SimpleLinearRegression.predict, hc, hb, omul, oadd]
  simp only [SimpleLinearRegression.score, if_neg hne, if_neg h0, hpred]
  rw [zipWith_osub_map_some (fun e => c * e + b) y x, innerProdO_map_some,
    innerProd_eq_sum, zipWith_mul_self_eq_map_sq, List.map_zipWith,
    accumulate_eq_sum, innerProd_eq_sum, zipWith_mul_self_eq_map_sq]
  have hyy : y.sum * y.sum = y.sum ^ 2 := (pow_two y.sum).symm
  simp only [odiv, osub]
  rw [hyy, if_neg hst]

/-- Witness for C1's amended theorem: at `coefficient = 1`,
`intercept = 0`, `x = [0, 1]`, `y = [0, 2]` the score is `1/2`. -/
theorem score_sstot_from_true_values_witness :
    SimpleLinearRegression.score ⟨some 1, some 0⟩ [0, 1] [0, 2] =
      .ok (some (1 / 2)) := by
  have h := score_sstot_from_true_values ⟨some 1, some 0⟩ [0, 1] [0, 2] 1 0
    rfl rfl rfl (by norm_num) (by norm_num)
  rw [h]
  norm_num

/-- C4: `SimpleLogisticRegression::fit` throws exactly when a
hyperparameter is out of range, the lengths mismatch or are below `2`,
or the epsilon-tolerant set of distinct `y` values (epsilon `1e-6`) does
not consist of exactly the two classes `0` and `1`. -/
theorem logistic_fit_error_iff (expF : ℚ → ℚ) (fuel : ℕ)
    (st : SimpleLogisticRegression) (x : List ℚ) (y : List ℤ) :
    (SimpleLogisticRegression.fit expF fuel st x y).2 ≠ none ↔
      (st.learning_rate ≤ 0 ∨ st.gradient_threshold ≤ 0 ∨
       1 ≤ st.gradient_threshold ∨ st.iteration_threshold ≤ 0 ∨
       x.length ≠ y.length ∨ x.length < 2 ∨
       ∀ l, Maths.set intCast y (1 / 1000000) = some l →
         l.length ≠ 2 ∨ (l.headI ≠ 0 ∧ l.headI ≠ 1) ∨
         (l.getLastD 0 ≠ 0 ∧ l.getLastD 0 ≠ 1)) := by
  by_cases h1 : st.learning_rate ≤ 0
  · simp only [SimpleLogisticRegression.fit, if_pos h1]
    simp only [ne_eq, reduceCtorEq, not_false_eq_true, true_iff]
    tauto
  by_cases h2 : st.gradient_threshold ≤ 0 ∨ 1 ≤ st.gradient_threshold
  · simp only [SimpleLogisticRegression.fit, if_neg h1, if_pos h2]
    simp only [ne_eq, reduceCtorEq, not_false_eq_true, true_iff]
    tauto
  by_cases h3 : st.iteration_threshold ≤ 0
  · simp only [SimpleLogisticRegression.fit, if_neg h1, if_neg h2, if_pos h3]
    simp only [ne_eq, reduceCtorEq, not_false_eq_true, true_iff]
    tauto
  by_cases h4 : x.length ≠ y.length
  · simp only [SimpleLogisticRegression.fit, if_neg h1, if_neg h2, if_neg h3,
      if_pos h4]
    simp only [ne_eq, reduceCtorEq, not_false_eq_true, true_iff]
    tauto
  by_cases h5 : x.length < 2
  · simp only [SimpleLogisticRegression.fit, if_neg h1, if_neg h2, if_neg h3,
      if_neg h4, if_pos h5]
    simp only [ne_eq, reduceCtorEq, not_false_eq_true, true_iff]
    tauto
  rcases hset : Maths.set intCast y (1 / 1000000) with _ | ySet
  · simp only [SimpleLogisticRegression.fit, if_neg h1, if_neg h2, if_neg h3,
      if_neg h4, if_neg h5, hset]
    simp only [ne_eq, reduceCtorEq, not_false_eq_true, true_iff]
    refine Or.inr (Or.inr (Or.inr (Or.inr (Or.inr (Or.inr fun l hl => ?_)))))
    exact hl.elim
  by_cases h6 : ySet.length ≠ 2
  · simp only [SimpleLogisticRegression.fit, if_neg h1, if_neg h2, if_neg h3,
      if_neg h4, if_neg h5, hset, if_pos h6]
    simp only [ne_eq, reduceCtorEq, not_false_eq_true, true_iff]
    refine Or.inr (Or.inr (Or.inr (Or.inr (Or.inr (Or.inr fun l hl => ?_)))))
    obtain rfl : ySet = l := by injection hl
    exact Or.inl h6
  by_cases h7 : (ySet.headI ≠ 0 ∧ ySet.headI ≠ 1) ∨
      (ySet.getLastD 0 ≠ 0 ∧ ySet.getLastD 0 ≠ 1)
  · simp only [SimpleLogisticRegression.fit, if_neg h1, if_neg h2, if_neg h3,
      if_neg h4, if_neg h5, hset, if_neg h6, if_pos h7]
    simp only [ne_eq, reduceCtorEq, not_false_eq_true, true_iff]
    refine Or.inr (Or.inr (Or.inr (Or.inr (Or.inr (Or.inr fun l hl => ?_)))))
    obtain rfl : ySet = l := by injection hl
    exact Or.inr h7
  · simp only [SimpleLogisticRegression.fit, if_neg h1, if_neg h2, if_neg h3,
      if_neg h4, if_neg h5, hset, if_neg h6, if_neg h7]
    simp only [ne_eq, not_true_eq_false, false_iff, not_or]
    refine ⟨h1, ?_, ?_, h3, h4, h5, ?_⟩
    · rcases not_or.mp h2 with ⟨ha, _⟩; exact ha
    · rcases not_or.mp h2 with ⟨_, hb⟩; exact hb
    · intro hall
      have := hall ySet rfl
      rcases this with hlen2 | hbin
      · exact h6 hlen2
      · exact h7 hbin

/-- Witness for C4: `y = [0, 1, 2]` has three distinct classes, so `fit`
throws. -/
theorem logistic_fit_error_iff_witness :
    (SimpleLogisticRegression.fit (fun _ => 1) 1 ⟨0, 0, 1, 1 / 2, 1⟩
      [0, 1, 2] [0, 1, 2]).2 ≠ none := by
  apply (logistic_fit_error_iff (fun _ => 1) 1 ⟨0, 0, 1, 1 / 2, 1⟩
    [0, 1, 2] [0, 1, 2]).mpr
  have hset : Maths.set intCast ([0, 1, 2] : List ℤ) (1 / 1000000) =
      some [0, 1, 2] := by
    norm_num [Maths.set, Maths.setLoop, intCast]
  refine Or.inr (Or.inr (Or.inr (Or.inr (Or.inr (Or.inr fun l hl => ?_)))))
  rw [hset] at hl
  obtain rfl : ([0, 1, 2] : List ℤ) = l := by injection hl
  left
  simp

/-- C10: `Maths::set` reads `x.front()` unconditionally, so an empty
input is an out-of-domain access; under the `len(x) >= 2` and
`len(x) == len(y)` checks that `SimpleLogisticRegression::fit` performs
before calling `Maths::set`, that error branch is unreachable. -/
theorem set_empty_input_unreachable_from_fit {α : Type} (cast : α → ℚ)
    (epsilon : ℚ) (expF : ℚ → ℚ) (fuel : ℕ) (st : SimpleLogisticRegression)
    (x : List ℚ) (y : List ℤ) :
    (Maths.set cast ([] : List α) epsilon = none) ∧
    (x.length = y.length → 2 ≤ x.length →
      ∃ l, Maths.set intCast y (1 / 1000000) = some l) ∧
    (SimpleLogisticRegression.fit expF fuel st x y).2 ≠
      some FitError.emptyInputToSet := by
  refine ⟨rfl, ?_, ?_⟩
  · intro hlen h2
    rcases y with _ | ⟨a, t⟩
    · rw [List.length_nil] at hlen; omega
    · exact ⟨_, rfl⟩
  · by_cases h1 : st.learning_rate ≤ 0
    · simp [SimpleLogisticRegression.fit, if_pos h1]
    by_cases h2 : st.gradient_threshold ≤ 0 ∨ 1 ≤ st.gradient_threshold
    · simp [SimpleLogisticRegression.fit, if_neg h1, if_pos h2]
    by_cases h3 : st.iteration_threshold ≤ 0
    · simp [SimpleLogisticRegression.fit, if_neg h1, if_neg h2, if_pos h3]
    by_cases h4 : x.length ≠ y.length
    · simp [SimpleLogisticRegression.fit, if_neg h1, if_neg h2, if_neg h3,
        if_pos h4]
    by_cases h5 : x.length < 2
    · simp [SimpleLogisticRegression.fit, if_neg h1, if_neg h2, if_neg h3,
        if_neg h4, if_pos h5]
    rcases hset : Maths.set intCast y (1 / 1000000) with _ | ySet
    · exfalso
      rw [not_ne_iff] at h4
      rcases y with _ | ⟨a, t⟩
      · rw [List.length_nil] at h4; omega
      · exact absurd hset (by simp [Maths.set])
    · simp only [SimpleLogisticRegression.fit, if_neg h1, if_neg h2, if_neg h3,
        if_neg h4, if_neg h5, hset]
      split_ifs <;> simp

/-- Witness for C10: on a concrete two-element input the preconditions
hold, `Maths::set` succeeds, and `fit` does not hit the empty-input
branch. -/
theorem set_empty_input_unreachable_from_fit_witness :
    (SimpleLogisticRegression.fit (fun _ => 1) 1 ⟨0, 0, 1, 1 / 2, 1⟩
      [0, 1] [0, 1]).2 ≠ some FitError.emptyInputToSet := by
  have hex := (set_empty_input_unreachable_from_fit (α := ℚ) id 1 (fun _ => 1) 1
    ⟨0, 0, 1, 1 / 2, 1⟩ [0, 1] [0, 1]).2.1 rfl (by norm_num)
  exact (set_empty_input_unreachable_from_fit (α := ℚ) id 1 (fun _ => 1) 1
    ⟨0, 0, 1, 1 / 2, 1⟩ [0, 1] [0, 1]).2.2

/-- Witness for C6: the length equation at a concrete input. -/
theorem logistic_predict_thresholds_sigmoid_witness :
    (SimpleLogisticRegression.predict (fun _ => 1) 1 0 [0, 3]).length = 2 := by
  have h := (logistic_predict_thresholds_sigmoid (fun _ => 1) 1 0 [0, 3]).2.1
  simpa using h

